import Mathlib

/-!
Verification of the eclipse-browser command layer (src/src-tauri/src/lib.rs).

The visible source is the Tauri command layer: `to_hex`, `extract_path`,
the `nwep_fetch` pipeline and `get_app_version`.  The `nwep` protocol
engine is an external crate consumed through a small interface
(`Keypair::generate`, `ClientBuilder::connect`, `Client::get` and the
node-identity accessors); we embed that interface as an abstract
environment whose three fallible operations can return arbitrary
outcomes, and prove the pipeline's behaviour for every outcome.
Machine bytes (`u8`) are embedded as `Fin 256`.
-/

namespace Eclipse

/-- One name/value header pair of the surface result
(struct `NwepHeader` in the source). -/
structure NwepHeader where
  name : String
  value : String
deriving DecidableEq, Repr

/-- One diagnostic log entry (struct `LogStep` in the source). -/
structure LogStep where
  name : String
  ok : Bool
  detail : Option String
deriving DecidableEq, Repr

/-- Connection identifiers surfaced to the caller
(struct `ConnectionInfo` in the source). -/
structure ConnectionInfo where
  client_node_id : String
  server_node_id : String
  server_pubkey : String
deriving DecidableEq, Repr

/-- The uniform result structure returned by `nwep_fetch`
(struct `NwepResult` in the source). -/
structure NwepResult where
  ok : Bool
  error : Option String
  status : Option String
  status_details : Option String
  body : Option String
  headers : List NwepHeader
  connection : Option ConnectionInfo
  log : List LogStep
deriving DecidableEq, Repr

/-- The lowercase hexadecimal digit for a nibble value:
`0..9` map to `'0'..'9'`, `10..15` map to `'a'..'f'`.
This is the digit Rust's `{:02x}` formatting uses. -/
def hexDigit (n : Nat) : Char :=
  if n < 10 then Char.ofNat (48 + n) else Char.ofNat (87 + n)

/-- `format!("\x7b:02x\x7d", b)` for a byte `b : u8`: since `b < 256` its
hexadecimal form has at most two digits and is left-padded to exactly
two, so the output is the high nibble's digit then the low nibble's. -/
def byteHex (b : Fin 256) : List Char :=
  [hexDigit (b.val / 16), hexDigit (b.val % 16)]

/-- `fn to_hex(bytes: &[u8]) -> String`: formats each byte as two
lowercase hex characters and concatenates the results. -/
def to_hex (bytes : List (Fin 256)) : String :=
  String.mk ((bytes.map byteHex).flatten)

/-- `fn extract_path(url: &str) -> String`: strips a leading `web://`
if present (`strip_prefix("web://").unwrap_or(url)`), then returns the
substring from the first `'/'` onwards if one exists (`find('/')` and
slice), else `"/"`.  Slicing a string at the position of a found
character keeps exactly the characters from that position on, which is
`List.dropWhile` on the character sequence. -/
def extract_path (url : String) : String :=
  let without_scheme :=
    if url.data.take 6 = "web://".data then url.data.drop 6 else url.data
  let suffix := without_scheme.dropWhile (fun c => c != '/')
  if suffix.isEmpty then "/" else String.mk suffix

example : extract_path "web://host" = "/" := by decide
example : extract_path "web://host/a/b" = "/a/b" := by decide
example : extract_path "proto://host" = "//host" := by decide
example : to_hex [171, 0, 255] = "ab00ff" := by decide

/-- The Unicode replacement character U+FFFD. -/
def replacementChar : Char := Char.ofNat 0xFFFD

/-- Is `b` a UTF-8 continuation byte (`0x80..0xBF`)? -/
def isCont (b : Fin 256) : Bool := 0x80 ≤ b.val && b.val ≤ 0xBF

/-- Valid second bytes of a three-byte UTF-8 sequence led by `b1`:
`0xE0` requires `0xA0..0xBF`, `0xED` requires `0x80..0x9F` (excluding
surrogates), others `0x80..0xBF`. -/
def isCont3 (b1 b2 : Fin 256) : Bool :=
  if b1.val = 0xE0 then 0xA0 ≤ b2.val && b2.val ≤ 0xBF
  else if b1.val = 0xED then 0x80 ≤ b2.val && b2.val ≤ 0x9F
  else isCont b2

/-- Valid second bytes of a four-byte UTF-8 sequence led by `b1`:
`0xF0` requires `0x90..0xBF`, `0xF4` requires `0x80..0x8F` (staying at
or below U+10FFFF), others `0x80..0xBF`. -/
def isCont4 (b1 b2 : Fin 256) : Bool :=
  if b1.val = 0xF0 then 0x90 ≤ b2.val && b2.val ≤ 0xBF
  else if b1.val = 0xF4 then 0x80 ≤ b2.val && b2.val ≤ 0x8F
  else isCont b2

/-- UTF-8 decoding with replacement, the semantics of Rust's
`String::from_utf8_lossy`: well-formed sequences decode to their code
point; an ill-formed sequence contributes one U+FFFD for its maximal
valid prefix and decoding resumes at the first offending byte. -/
def utf8DecodeLossy : List (Fin 256) → List Char
  | [] => []
  | b1 :: t1 =>
    if b1.val < 0x80 then
      Char.ofNat b1.val :: utf8DecodeLossy t1
    else if b1.val < 0xC2 then
      replacementChar :: utf8DecodeLossy t1
    else if b1.val ≤ 0xDF then
      match t1 with
      | [] => [replacementChar]
      | b2 :: t2 =>
        if isCont b2 then
          Char.ofNat ((b1.val - 0xC0) * 64 + (b2.val - 0x80)) ::
            utf8DecodeLossy t2
        else replacementChar :: utf8DecodeLossy (b2 :: t2)
    else if b1.val ≤ 0xEF then
      match t1 with
      | [] => [replacementChar]
      | b2 :: t2 =>
        if isCont3 b1 b2 then
          match t2 with
          | [] => [replacementChar]
          | b3 :: t3 =>
            if isCont b3 then
              Char.ofNat ((b1.val - 0xE0) * 4096 + (b2.val - 0x80) * 64 +
                (b3.val - 0x80)) :: utf8DecodeLossy t3
            else replacementChar :: utf8DecodeLossy (b3 :: t3)
        else replacementChar :: utf8DecodeLossy (b2 :: t2)
    else if b1.val ≤ 0xF4 then
      match t1 with
      | [] => [replacementChar]
      | b2 :: t2 =>
        if isCont4 b1 b2 then
          match t2 with
          | [] => [replacementChar]
          | b3 :: t3 =>
            if isCont b3 then
              match t3 with
              | [] => [replacementChar]
              | b4 :: t4 =>
                if isCont b4 then
                  Char.ofNat ((b1.val - 0xF0) * 262144 +
                    (b2.val - 0x80) * 4096 + (b3.val - 0x80) * 64 +
                    (b4.val - 0x80)) :: utf8DecodeLossy t4
                else replacementChar :: utf8DecodeLossy (b4 :: t4)
            else replacementChar :: utf8DecodeLossy (b3 :: t3)
        else replacementChar :: utf8DecodeLossy (b2 :: t2)
    else
      replacementChar :: utf8DecodeLossy t1

/-- Rust's `String::from_utf8_lossy(&bytes).to_string()`. -/
def from_utf8_lossy (bytes : List (Fin 256)) : String :=
  String.mk (utf8DecodeLossy bytes)

example : from_utf8_lossy [104, 105] = "hi" := by decide
example : from_utf8_lossy [0xC3, 0xA9] = "é" := by decide
example : from_utf8_lossy [0xFF, 65] = String.mk [replacementChar, 'A'] := by
  decide

/-- A header of the protocol-level response.  Modelled from the spec:
the `nwep` crate's response header type is external to the sources
here; §3 describes it as an ordered sequence of name/value pairs. -/
structure RespHeader where
  name : String
  value : String
deriving DecidableEq, Repr

/-- A protocol-level response.  Modelled from the spec: the `nwep`
crate's `Response` is external to the sources here; §3 describes it as
a status, an optional status detail string, ordered headers, and a
body of raw bytes. -/
structure Response where
  status : String
  status_details : String
  headers : List RespHeader
  body : List (Fin 256)

/-- A connected protocol client.  Modelled from the spec: the `nwep`
crate's `Client` is external to the sources here; §4.5 gives it the
never-failing accessors `node_id`, `peer_node_id` and `peer_identity`
(whose `pubkey` field the command layer renders), and a fallible
`get(path)`.  Errors are embedded as their display strings, which is
all the command layer uses of them (`format!`). -/
structure Client where
  node_id : String
  peer_node_id : String
  peer_pubkey : List (Fin 256)
  get : String → Except String Response

/-- The external `nwep` operations the pipeline consumes, one record
per run.  Modelled from the spec: `Keypair::generate` (§4.1) and
`ClientBuilder::connect` (§4.5) are external to the sources here; `K`
is the abstract keypair type, never inspected by the command layer. -/
structure NwepEnv (K : Type) where
  generate : Except String K
  connect : K → String → Except String Client

/-- `async fn nwep_fetch(url) -> Result<NwepResult, String>`: the body
of the `spawn_blocking` closure, transcribed stage by stage.  Each
stage appends one `LogStep`; a failing stage returns an `ok=false`
result carrying the error's display string; a successful fetch returns
the decoded body, the mapped headers and the connection identifiers.
The `Ok`/`spawn_blocking` wrapper around the closure is runtime
plumbing and the closure itself always produces an `NwepResult`. -/
def nwep_fetch {K : Type} (env : NwepEnv K) (url : String) : NwepResult :=
  let log : List LogStep := []
  match env.generate with
  | .error e =>
    let log := log ++
      [{ name := "generated ephemeral keypair", ok := false, detail := some e }]
    { ok := false, error := some e,
      status := none, status_details := none, body := none,
      headers := [], connection := none, log := log }
  | .ok keypair =>
    let log := log ++
      [{ name := "generated ephemeral keypair", ok := true, detail := none }]
    let path := extract_path url
    match env.connect keypair url with
    | .error e =>
      let log := log ++
        [{ name := "client established connection", ok := false,
           detail := some e }]
      { ok := false, error := some e,
        status := none, status_details := none, body := none,
        headers := [], connection := none, log := log }
    | .ok client =>
      let log := log ++
        [{ name := "client established connection", ok := true,
           detail := none }]
      let connection : ConnectionInfo :=
        { client_node_id := client.node_id,
          server_node_id := client.peer_node_id,
          server_pubkey := to_hex client.peer_pubkey }
      match client.get path with
      | .error e =>
        let log := log ++
          [{ name := "fetched resource", ok := false, detail := some e }]
        { ok := false, error := some e,
          status := none, status_details := none, body := none,
          headers := [], connection := some connection, log := log }
      | .ok r =>
        let detail :=
          if r.status_details = "" then r.status
          else r.status ++ " " ++ r.status_details
        let log := log ++
          [{ name := "fetched resource", ok := true, detail := some detail }]
        { ok := true, error := none,
          status := some r.status, status_details := some r.status_details,
          body := some (from_utf8_lossy r.body),
          headers := r.headers.map
            (fun h => { name := h.name, value := h.value }),
          connection := some connection, log := log }

/-- Modelled from the spec: the crate version baked in at compile time
by `env!("CARGO_PKG_VERSION")`; the Cargo manifest is not among the
sources here and the spec only requires a static string. -/
def CARGO_PKG_VERSION : String := "0.1.0"

/-- `fn get_app_version() -> String`: returns the compile-time version
string.  The `Unit` argument models one invocation of the command; the
return type is a plain `String`, not a `Result`, so there is no
failure mode. -/
def get_app_version (_call : Unit) : String :=
  CARGO_PKG_VERSION

/-! ### Concrete fixtures used by witnesses -/

/-- A connected client whose fetch succeeds. -/
def testClient : Client :=
  { node_id := "client-node", peer_node_id := "server-node",
    peer_pubkey := [171, 205],
    get := fun _ => .ok
      { status := "200", status_details := "OK",
        headers := [{ name := "content-type", value := "text/plain" }],
        body := [104, 105] } }

/-- A connected client whose fetch fails. -/
def testClientGetErr : Client :=
  { node_id := "client-node", peer_node_id := "server-node",
    peer_pubkey := [171, 205],
    get := fun _ => .error "Timeout" }

/-- An environment where every stage succeeds. -/
def envOk : NwepEnv Unit :=
  { generate := .ok (), connect := fun _ _ => .ok testClient }

/-- An environment where keypair generation fails. -/
def envGenErr : NwepEnv Unit :=
  { generate := .error "EntropyError", connect := fun _ _ => .ok testClient }

/-- An environment where connection establishment fails. -/
def envConnErr : NwepEnv Unit :=
  { generate := .ok (), connect := fun _ _ => .error "TransportError" }

/-- An environment where the fetch fails after a successful
connection. -/
def envGetErr : NwepEnv Unit :=
  { generate := .ok (), connect := fun _ _ => .ok testClientGetErr }

/-! ### Stage equations for the pipeline -/

/-- When keypair generation fails, the pipeline returns immediately. -/
theorem fetch_gen_err {K : Type} (env : NwepEnv K) (url e : String)
    (h : env.generate = .error e) :
    nwep_fetch env url =
      { ok := false, error := some e,
        status := none, status_details := none, body := none,
        headers := [], connection := none,
        log := [{ name := "generated ephemeral keypair", ok := false,
                  detail := some e }] } := by
  simp [nwep_fetch, h]

/-- When generation succeeds and connection fails, the pipeline returns
after the second stage. -/
theorem fetch_conn_err {K : Type} (env : NwepEnv K) (url e : String) (kp : K)
    (h1 : env.generate = .ok kp) (h2 : env.connect kp url = .error e) :
    nwep_fetch env url =
      { ok := false, error := some e,
        status := none, status_details := none, body := none,
        headers := [], connection := none,
        log := [{ name := "generated ephemeral keypair", ok := true,
                  detail := none },
                { name := "client established connection", ok := false,
                  detail := some e }] } := by
  simp [nwep_fetch, h1, h2]

/-- When generation and connection succeed and the fetch fails, the
pipeline returns after the third stage, keeping the connection info. -/
theorem fetch_get_err {K : Type} (env : NwepEnv K) (url e : String) (kp : K)
    (c : Client)
    (h1 : env.generate = .ok kp) (h2 : env.connect kp url = .ok c)
    (h3 : c.get (extract_path url) = .error e) :
    nwep_fetch env url =
      { ok := false, error := some e,
        status := none, status_details := none, body := none,
        headers := [],
        connection := some
          { client_node_id := c.node_id, server_node_id := c.peer_node_id,
            server_pubkey := to_hex c.peer_pubkey },
        log := [{ name := "generated ephemeral keypair", ok := true,
                  detail := none },
                { name := "client established connection", ok := true,
                  detail := none },
                { name := "fetched resource", ok := false,
                  detail := some e }] } := by
  simp [nwep_fetch, h1, h2, h3]

/-- When every stage succeeds, the pipeline returns the full result. -/
theorem fetch_ok {K : Type} (env : NwepEnv K) (url : String) (kp : K)
    (c : Client) (r : Response)
    (h1 : env.generate = .ok kp) (h2 : env.connect kp url = .ok c)
    (h3 : c.get (extract_path url) = .ok r) :
    nwep_fetch env url =
      { ok := true, error := none,
        status := some r.status, status_details := some r.status_details,
        body := some (from_utf8_lossy r.body),
        headers := r.headers.map
          (fun h => { name := h.name, value := h.value }),
        connection := some
          { client_node_id := c.node_id, server_node_id := c.peer_node_id,
            server_pubkey := to_hex c.peer_pubkey },
        log := [{ name := "generated ephemeral keypair", ok := true,
                  detail := none },
                { name := "client established connection", ok := true,
                  detail := none },
                { name := "fetched resource", ok := true,
                  detail := some (if r.status_details = "" then r.status
                    else r.status ++ " " ++ r.status_details) }] } := by
  simp [nwep_fetch, h1, h2, h3]

/-! ### Claim theorems -/

/-- C2: whenever any stage of the `nwep_fetch` pipeline fails (keypair
generation, connection, or fetch) with error message `e`, the returned
result has `ok = false`, `error = some e`, and the log contains a
failed step whose detail carries that same message. -/
theorem nwep_fetch_error_structured {K : Type} (env : NwepEnv K)
    (url e : String)
    (h : env.generate = .error e ∨
      (∃ kp, env.generate = .ok kp ∧ env.connect kp url = .error e) ∨
      (∃ kp c, env.generate = .ok kp ∧ env.connect kp url = .ok c ∧
        c.get (extract_path url) = .error e)) :
    (nwep_fetch env url).ok = false ∧
    (nwep_fetch env url).error = some e ∧
    ∃ s ∈ (nwep_fetch env url).log, s.ok = false ∧ s.detail = some e := by
  rcases h with h | ⟨kp, h1, h2⟩ | ⟨kp, c, h1, h2, h3⟩
  · rw [fetch_gen_err env url e h]
    exact ⟨rfl, rfl,
      { name := "generated ephemeral keypair", ok := false,
        detail := some e }, by simp, rfl, rfl⟩
  · rw [fetch_conn_err env url e kp h1 h2]
    exact ⟨rfl, rfl,
      { name := "client established connection", ok := false,
        detail := some e }, by simp, rfl, rfl⟩
  · rw [fetch_get_err env url e kp c h1 h2 h3]
    exact ⟨rfl, rfl,
      { name := "fetched resource", ok := false, detail := some e },
      by simp, rfl, rfl⟩

/-- Witness for C2: a concrete run whose keypair generation fails. -/
theorem nwep_fetch_error_structured_witness :
    (nwep_fetch envGenErr "web://h").ok = false ∧
    (nwep_fetch envGenErr "web://h").error = some "EntropyError" ∧
    ∃ s ∈ (nwep_fetch envGenErr "web://h").log,
      s.ok = false ∧ s.detail = some "EntropyError" :=
  nwep_fetch_error_structured envGenErr "web://h" "EntropyError" (Or.inl rfl)

/-- C3: when generation and connection succeed but the fetch fails, the
result still carries the connection identifiers (client node id, server
node id, server public key in hex) while `ok = false` and status,
status details and body are absent. -/
theorem nwep_fetch_partial_progress {K : Type} (env : NwepEnv K)
    (url e : String) (kp : K) (c : Client)
    (h1 : env.generate = .ok kp) (h2 : env.connect kp url = .ok c)
    (h3 : c.get (extract_path url) = .error e) :
    (nwep_fetch env url).connection = some
      { client_node_id := c.node_id, server_node_id := c.peer_node_id,
        server_pubkey := to_hex c.peer_pubkey } ∧
    (nwep_fetch env url).ok = false ∧
    (nwep_fetch env url).status = none ∧
    (nwep_fetch env url).status_details = none ∧
    (nwep_fetch env url).body = none := by
  rw [fetch_get_err env url e kp c h1 h2 h3]
  exact ⟨rfl, rfl, rfl, rfl, rfl⟩

/-- Witness for C3: a concrete run whose fetch fails after a successful
connection. -/
theorem nwep_fetch_partial_progress_witness :
    (nwep_fetch envGetErr "web://h").connection = some
      { client_node_id := "client-node", server_node_id := "server-node",
        server_pubkey := to_hex [171, 205] } ∧
    (nwep_fetch envGetErr "web://h").ok = false ∧
    (nwep_fetch envGetErr "web://h").status = none ∧
    (nwep_fetch envGetErr "web://h").status_details = none ∧
    (nwep_fetch envGetErr "web://h").body = none :=
  nwep_fetch_partial_progress envGetErr "web://h" "Timeout" ()
    testClientGetErr rfl rfl rfl

/-- C4: when keypair generation succeeds but connection establishment
fails, the result has zero headers and the log has exactly two steps:
a successful keypair-generation step followed by one failed step. -/
theorem nwep_fetch_conn_refused {K : Type} (env : NwepEnv K)
    (url e : String) (kp : K)
    (h1 : env.generate = .ok kp) (h2 : env.connect kp url = .error e) :
    (nwep_fetch env url).headers = [] ∧
    (nwep_fetch env url).log.length = 2 ∧
    (nwep_fetch env url).log.map LogStep.ok = [true, false] := by
  rw [fetch_conn_err env url e kp h1 h2]
  exact ⟨rfl, rfl, rfl⟩

/-- Witness for C4: a concrete run whose connection is refused. -/
theorem nwep_fetch_conn_refused_witness :
    (nwep_fetch envConnErr "web://h").headers = [] ∧
    (nwep_fetch envConnErr "web://h").log.length = 2 ∧
    (nwep_fetch envConnErr "web://h").log.map LogStep.ok = [true, false] :=
  nwep_fetch_conn_refused envConnErr "web://h" "TransportError" () rfl rfl

/-- C5: the log has exactly one step per stage attempted, in pipeline
order; on failure a step's detail is the error text, and on a
successful fetch the detail is the combined status line (the status
alone when the status details are empty, otherwise status, a space,
and the details). -/
theorem nwep_fetch_log_steps {K : Type} (env : NwepEnv K) (url : String) :
    (∀ e, env.generate = .error e →
      (nwep_fetch env url).log =
        [{ name := "generated ephemeral keypair", ok := false,
           detail := some e }]) ∧
    (∀ kp e, env.generate = .ok kp → env.connect kp url = .error e →
      (nwep_fetch env url).log =
        [{ name := "generated ephemeral keypair", ok := true,
           detail := none },
         { name := "client established connection", ok := false,
           detail := some e }]) ∧
    (∀ kp c e, env.generate = .ok kp → env.connect kp url = .ok c →
      c.get (extract_path url) = .error e →
      (nwep_fetch env url).log =
        [{ name := "generated ephemeral keypair", ok := true,
           detail := none },
         { name := "client established connection", ok := true,
           detail := none },
         { name := "fetched resource", ok := false, detail := some e }]) ∧
    (∀ kp c r, env.generate = .ok kp → env.connect kp url = .ok c →
      c.get (extract_path url) = .ok r →
      (nwep_fetch env url).log =
        [{ name := "generated ephemeral keypair", ok := true,
           detail := none },
         { name := "client established connection", ok := true,
           detail := none },
         { name := "fetched resource", ok := true,
           detail := some (if r.status_details = "" then r.status
             else r.status ++ " " ++ r.status_details) }]) := by
  refine ⟨?_, ?_, ?_, ?_⟩
  · intro e h
    rw [fetch_gen_err env url e h]
  · intro kp e h1 h2
    rw [fetch_conn_err env url e kp h1 h2]
  · intro kp c e h1 h2 h3
    rw [fetch_get_err env url e kp c h1 h2 h3]
  · intro kp c r h1 h2 h3
    rw [fetch_ok env url kp c r h1 h2 h3]

/-- Witness for C5: the successful-fetch case at a concrete run, where
the status is `200` and the details `OK`, combined as `200 OK`. -/
theorem nwep_fetch_log_steps_witness :
    (nwep_fetch envOk "web://h").log =
      [{ name := "generated ephemeral keypair", ok := true, detail := none },
       { name := "client established connection", ok := true,
         detail := none },
       { name := "fetched resource", ok := true,
         detail := some (if "OK" = "" then "200"
           else "200" ++ " " ++ "OK") }] :=
  (nwep_fetch_log_steps envOk "web://h").2.2.2 () testClient
    { status := "200", status_details := "OK",
      headers := [{ name := "content-type", value := "text/plain" }],
      body := [104, 105] } rfl rfl rfl

/-- C6: on a successful run the body is the lossy UTF-8 decoding of the
response's raw body bytes, and the result's headers have the same
length, the same name/value pairs, and the same order as the
response's headers. -/
theorem nwep_fetch_success_body_headers {K : Type} (env : NwepEnv K)
    (url : String) (kp : K) (c : Client) (r : Response)
    (h1 : env.generate = .ok kp) (h2 : env.connect kp url = .ok c)
    (h3 : c.get (extract_path url) = .ok r) :
    (nwep_fetch env url).body = some (from_utf8_lossy r.body) ∧
    (nwep_fetch env url).headers.length = r.headers.length ∧
    (nwep_fetch env url).headers.map (fun h => (h.name, h.value)) =
      r.headers.map (fun h => (h.name, h.value)) := by
  rw [fetch_ok env url kp c r h1 h2 h3]
  refine ⟨rfl, by simp, ?_⟩
  simp [List.map_map]

/-- Witness for C6: the concrete successful run; its body bytes decode
to `hi` and its single header survives unchanged. -/
theorem nwep_fetch_success_body_headers_witness :
    (nwep_fetch envOk "web://h").body = some (from_utf8_lossy [104, 105]) ∧
    (nwep_fetch envOk "web://h").headers.length =
      [RespHeader.mk "content-type" "text/plain"].length ∧
    (nwep_fetch envOk "web://h").headers.map (fun h => (h.name, h.value)) =
      [RespHeader.mk "content-type" "text/plain"].map
        (fun h => (h.name, h.value)) :=
  nwep_fetch_success_body_headers envOk "web://h" () testClient
    { status := "200", status_details := "OK",
      headers := [{ name := "content-type", value := "text/plain" }],
      body := [104, 105] } rfl rfl rfl

/-- C9: every result of the pipeline satisfies the invariant:
`ok = true` iff `error` is absent, iff status, status details and body
are all present; the log is non-empty; and the last log step's `ok`
flag equals the result's `ok` flag. -/
theorem nwep_fetch_invariant {K : Type} (env : NwepEnv K) (url : String) :
    ((nwep_fetch env url).ok = true ↔ (nwep_fetch env url).error = none) ∧
    ((nwep_fetch env url).ok = true ↔
      ((nwep_fetch env url).status.isSome = true ∧
       (nwep_fetch env url).status_details.isSome = true ∧
       (nwep_fetch env url).body.isSome = true)) ∧
    (nwep_fetch env url).log ≠ [] ∧
    ((nwep_fetch env url).log.map LogStep.ok).getLast? =
      some (nwep_fetch env url).ok := by
  match h1 : env.generate with
  | .error e =>
    rw [fetch_gen_err env url e h1]
    simp
  | .ok kp =>
    match h2 : env.connect kp url with
    | .error e =>
      rw [fetch_conn_err env url e kp h1 h2]
      simp
    | .ok c =>
      match h3 : c.get (extract_path url) with
      | .error e =>
        rw [fetch_get_err env url e kp c h1 h2 h3]
        simp
      | .ok r =>
        rw [fetch_ok env url kp c r h1 h2 h3]
        simp

/-! ### extract_path and to_hex claims -/

/-- If every character of `l` differs from `'/'`, dropping while
not-slash consumes all of `l`. -/
theorem dropWhile_ne_slash_nil (l : List Char) (h : ∀ c ∈ l, c ≠ '/') :
    l.dropWhile (fun c => c != '/') = [] := by
  induction l with
  | nil => rfl
  | cons c t ih =>
    have hc : (c != '/') = true := by
      simpa using h c (List.mem_cons_self c t)
    rw [List.dropWhile_cons, hc]
    exact ih (fun x hx => h x (List.mem_cons_of_mem c hx))

/-- Dropping while not-slash over `pre ++ '/' :: post`, with no slash
in `pre`, lands exactly on the slash. -/
theorem dropWhile_ne_slash_append (pre post : List Char)
    (h : ∀ c ∈ pre, c ≠ '/') :
    (pre ++ '/' :: post).dropWhile (fun c => c != '/') = '/' :: post := by
  induction pre with
  | nil => simp [List.dropWhile_cons]
  | cons c t ih =>
    have hc : (c != '/') = true := by
      simpa using h c (List.mem_cons_self c t)
    rw [List.cons_append, List.dropWhile_cons, hc]
    exact ih (fun x hx => h x (List.mem_cons_of_mem c hx))

/-- Unfolding of `extract_path` with its let-bindings expanded. -/
theorem extract_path_def (url : String) :
    extract_path url =
      (if ((if url.data.take 6 = "web://".data then url.data.drop 6
          else url.data).dropWhile (fun c => c != '/')).isEmpty
       then "/"
       else String.mk ((if url.data.take 6 = "web://".data then
          url.data.drop 6 else url.data).dropWhile (fun c => c != '/'))) :=
  rfl

/-- The head of a non-exhausted `dropWhile` fails the predicate. -/
theorem dropWhile_head_false (p : Char → Bool) (l : List Char) (c : Char)
    (t : List Char) (h : l.dropWhile p = c :: t) : p c = false := by
  induction l with
  | nil => cases h
  | cons a l ih =>
    rw [List.dropWhile_cons] at h
    by_cases ha : p a = true
    · rw [if_pos ha] at h
      exact ih h
    · rw [if_neg ha] at h
      cases h
      simpa using ha

/-- C1 counterexample: the claim asserts
`extract_path "proto://host" = "/"`, but the code strips only the
literal `web://` prefix, so the first slash it finds is inside `://`
and the result is `//host`. -/
theorem extract_path_proto_counterexample :
    ¬ (extract_path "proto://host" = "/") := by decide

/-- C1 (amended): for URL strings, after stripping a leading `web://`
(and only that scheme prefix), `extract_path` returns everything from
the first `'/'` of the remainder, defaulting to `"/"` when the
remainder has no slash; in particular `extract_path "web://host" = "/"`
and `extract_path "web://host/a/b" = "/a/b"`. -/
theorem extract_path_spec (url : String) :
    ((∀ c ∈ (if url.data.take 6 = "web://".data then url.data.drop 6
        else url.data), c ≠ '/') → extract_path url = "/") ∧
    (∀ pre post,
      (if url.data.take 6 = "web://".data then url.data.drop 6
        else url.data) = pre ++ '/' :: post →
      (∀ c ∈ pre, c ≠ '/') →
      extract_path url = String.mk ('/' :: post)) := by
  constructor
  · intro h
    rw [extract_path_def, dropWhile_ne_slash_nil _ h]
    rfl
  · intro pre post hsplit hpre
    rw [extract_path_def, hsplit,
      dropWhile_ne_slash_append pre post hpre]
    rfl

/-- Witness for the amended C1: the two concrete scenarios. -/
theorem extract_path_spec_witness :
    extract_path "web://host" = "/" ∧
    extract_path "web://host/a/b" = "/a/b" := by
  constructor
  · exact (extract_path_spec "web://host").1 (by decide)
  · have h := (extract_path_spec "web://host/a/b").2
      ['h', 'o', 's', 't'] ['a', '/', 'b'] (by decide) (by decide)
    simpa using h

/-- C10: `extract_path` is total and for every input returns a
non-empty string whose first character is `'/'` — the slice only ever
starts at a found `'/'`, and the no-slash branch returns `"/"`. -/
theorem extract_path_total_safe (url : String) :
    0 < (extract_path url).length ∧
    (extract_path url).data.head? = some '/' := by
  rw [extract_path_def]
  generalize (if url.data.take 6 = "web://".data then url.data.drop 6
    else url.data) = ws
  rcases hs : ws.dropWhile (fun c => c != '/') with _ | ⟨c, t⟩
  · exact ⟨by decide, by decide⟩
  · have hc : c = '/' := by
      have := dropWhile_head_false (fun c => c != '/') ws c t hs
      simpa using this
    subst hc
    simp [String.length]

/-- The sixteen nibble digits all lie in `0..9` or `a..f`. -/
theorem hexDigit_range : ∀ n : Fin 16,
    ('0' ≤ hexDigit n.val ∧ hexDigit n.val ≤ '9') ∨
    ('a' ≤ hexDigit n.val ∧ hexDigit n.val ≤ 'f') := by
  decide

/-- C7: `to_hex` produces exactly two characters per input byte with no
separators, and every output character is a lowercase hex digit
(`0`-`9` or `a`-`f`). -/
theorem to_hex_shape (bytes : List (Fin 256)) :
    (to_hex bytes).length = 2 * bytes.length ∧
    ∀ c ∈ (to_hex bytes).data,
      ('0' ≤ c ∧ c ≤ '9') ∨ ('a' ≤ c ∧ c ≤ 'f') := by
  constructor
  · show ((bytes.map byteHex).flatten).length = 2 * bytes.length
    induction bytes with
    | nil => rfl
    | cons b t ih =>
      simp only [List.map_cons, List.flatten_cons, List.length_append, ih,
        byteHex, List.length_cons, List.length_nil, List.length_map]
      omega
  · intro c hc
    have hc' : c ∈ (bytes.map byteHex).flatten := hc
    rw [List.mem_flatten] at hc'
    obtain ⟨l, hl, hcl⟩ := hc'
    rw [List.mem_map] at hl
    obtain ⟨b, _, rfl⟩ := hl
    have hb : b.val < 256 := b.isLt
    simp only [byteHex, List.mem_cons, List.not_mem_nil, or_false] at hcl
    rcases hcl with rfl | rfl
    · exact hexDigit_range ⟨b.val / 16, by omega⟩
    · exact hexDigit_range ⟨b.val % 16, by omega⟩

/-- C8: the version command is total and deterministic — it returns the
same static string, the compile-time package version, on every call,
with no failure mode (its result type is `String`, not `Except`). -/
theorem get_app_version_static (u v : Unit) :
    get_app_version u = get_app_version v ∧
    get_app_version u = CARGO_PKG_VERSION :=
  ⟨rfl, rfl⟩

end Eclipse
